import Mathlib

/-!
Verification of the kaspa-mcp-server orchestration core against its
natural-language specification.  Every definition below is a shallow
embedding of a function of the repository, with the source location given
in its doc comment; JS `bigint` values are modelled as `ℤ`, JS objects as
structures, fallible code as `Except`, and the asynchronous Ledger-Engine
collaborators (RPC, WASM generator) as explicit oracle inputs.
-/

/-! ## UTXO selection (packages/kaspa-wasm-sdk/src/utxo/UtxoManager.ts) -/

/-- Model of `kaspa.IUtxoEntry` restricted to the fields `selectUTXOs` reads
(`amount`) plus identity fields, so distinct entries stay distinct. -/
structure IUtxoEntry where
  address : String
  transactionId : String
  outputIndex : Nat
  amount : ℤ
deriving DecidableEq, Repr

/-- Sum of the `amount` fields of a list of entries. -/
def sumAmounts (l : List IUtxoEntry) : ℤ :=
  (l.map IUtxoEntry.amount).sum

@[simp]
theorem sumAmounts_nil : sumAmounts [] = 0 := rfl

@[simp]
theorem sumAmounts_cons (u : IUtxoEntry) (l : List IUtxoEntry) :
    sumAmounts (u :: l) = u.amount + sumAmounts l := by
  simp [sumAmounts]

/-- The ordering induced by the comparator at UtxoManager.ts:189-191,
`(a, b) => Number(b.amount - a.amount)`: the comparator is positive exactly
when `b.amount > a.amount` (`Number` of a nonzero bigint difference keeps its
sign), so the sort orders entries by amount descending. -/
def utxoDescOrder (a b : IUtxoEntry) : Prop :=
  b.amount ≤ a.amount

instance : DecidableRel utxoDescOrder :=
  fun a b => inferInstanceAs (Decidable (b.amount ≤ a.amount))

instance : IsTotal IUtxoEntry utxoDescOrder :=
  ⟨fun a b => le_total b.amount a.amount⟩

instance : IsTrans IUtxoEntry utxoDescOrder :=
  ⟨fun _ _ _ h1 h2 => le_trans h2 h1⟩

/-- UtxoManager.ts:189-191: `[...availableUtxos].sort((a, b) =>
Number(b.amount - a.amount))`.  JS `Array.prototype.sort` is a stable sort by
the comparator; a stable insertion sort under `utxoDescOrder` computes the
same list. -/
def selectSort (availableUtxos : List IUtxoEntry) : List IUtxoEntry :=
  List.insertionSort utxoDescOrder availableUtxos

/-- The `for (const utxo of sortedUtxos)` loop of UtxoManager.ts:197-205:
push the entry, add its amount to the running total, add `feePerUtxo` to the
required total, and break as soon as `totalAmount >= totalNeeded`.  Returns
(selectedUtxos, totalAmount, totalNeeded) at loop exit. -/
def selectLoop (feePerUtxo : ℤ) :
    List IUtxoEntry → List IUtxoEntry → ℤ → ℤ → List IUtxoEntry × ℤ × ℤ
  | [], selectedUtxos, totalAmount, totalNeeded =>
      (selectedUtxos, totalAmount, totalNeeded)
  | utxo :: rest, selectedUtxos, totalAmount, totalNeeded =>
      let selected := selectedUtxos ++ [utxo]
      let total := totalAmount + utxo.amount
      let needed := totalNeeded + feePerUtxo
      if needed ≤ total then (selected, total, needed)
      else selectLoop feePerUtxo rest selected total needed

/-- Result record of `selectUTXOs` (UtxoManager.ts:211-215). -/
structure SelectUTXOsResult where
  selectedUtxos : List IUtxoEntry
  totalAmount : ℤ
  change : ℤ
deriving DecidableEq, Repr

/-- The message thrown at UtxoManager.ts:208:
`Insufficient funds. Need ${totalNeeded}, have ${totalAmount}`. -/
def insufficientFundsMessage (totalNeeded totalAmount : ℤ) : String :=
  "Insufficient funds. Need " ++ toString totalNeeded ++ ", have " ++
    toString totalAmount

/-- UtxoManager.ts:183-216, `UtxoManager.selectUTXOs`: sort a copy of the
available entries by amount descending, run the greedy loop starting from
`totalAmount = 0` and `totalNeeded = targetAmount`, throw if the accumulated
amount is still below the required total, otherwise return the selection with
`change = totalAmount - totalNeeded`. -/
def selectUTXOs (availableUtxos : List IUtxoEntry) (targetAmount feePerUtxo : ℤ) :
    Except String SelectUTXOsResult :=
  if (selectLoop feePerUtxo (selectSort availableUtxos) [] 0 targetAmount).2.1 <
      (selectLoop feePerUtxo (selectSort availableUtxos) [] 0 targetAmount).2.2 then
    Except.error (insufficientFundsMessage
      (selectLoop feePerUtxo (selectSort availableUtxos) [] 0 targetAmount).2.2
      (selectLoop feePerUtxo (selectSort availableUtxos) [] 0 targetAmount).2.1)
  else
    Except.ok
      ⟨(selectLoop feePerUtxo (selectSort availableUtxos) [] 0 targetAmount).1,
       (selectLoop feePerUtxo (selectSort availableUtxos) [] 0 targetAmount).2.1,
       (selectLoop feePerUtxo (selectSort availableUtxos) [] 0 targetAmount).2.1 -
         (selectLoop feePerUtxo (selectSort availableUtxos) [] 0 targetAmount).2.2⟩

/-- The caller-visible effect of `selectUTXOs` on the `availableUtxos` array.
The source sorts the spread copy `[...availableUtxos]` (UtxoManager.ts:189) and
applies no mutating operation to the argument array itself, so the content of
the caller's array after the call — returned here as the second component —
is the content it had before the call, on success and on failure alike. -/
def selectUTXOsCallerView (availableUtxos : List IUtxoEntry)
    (targetAmount feePerUtxo : ℤ) :
    Except String SelectUTXOsResult × List IUtxoEntry :=
  (selectUTXOs availableUtxos targetAmount feePerUtxo, availableUtxos)

/-- Full characterisation of the greedy loop: it consumes some prefix of
length `k` of its input; every intermediate check that let the loop continue
saw a running total strictly below the running requirement; if the loop
stopped before exhausting the list, the final total meets the final
requirement; a nonempty list always contributes at least one entry. -/
theorem selectLoop_spec (feePerUtxo : ℤ) (l : List IUtxoEntry) :
    ∀ (sel : List IUtxoEntry) (tot need : ℤ),
      ∃ k, k ≤ l.length ∧
        selectLoop feePerUtxo l sel tot need =
          (sel ++ l.take k, tot + sumAmounts (l.take k), need + k * feePerUtxo) ∧
        (∀ j, 0 < j → j < k →
          tot + sumAmounts (l.take j) < need + j * feePerUtxo) ∧
        (k < l.length →
          need + k * feePerUtxo ≤ tot + sumAmounts (l.take k)) ∧
        (l ≠ [] → 0 < k) := by
  induction l with
  | nil =>
      intro sel tot need
      refine ⟨0, by simp, ?_, ?_, ?_, ?_⟩
      · simp [selectLoop, sumAmounts]
      · intro j hj hjk; omega
      · intro h; simp at h
      · intro h; simp at h
  | cons u rest ih =>
      intro sel tot need
      by_cases hbreak : need + feePerUtxo ≤ tot + u.amount
      · refine ⟨1, by simp, ?_, ?_, ?_, ?_⟩
        · simp [selectLoop, hbreak]
        · intro j hj hjk; omega
        · intro _
          simpa using hbreak
        · intro _; omega
      · obtain ⟨k, hk, heq, hmid, hbrk, _⟩ :=
          ih (sel ++ [u]) (tot + u.amount) (need + feePerUtxo)
        refine ⟨k + 1, by simp; omega, ?_, ?_, ?_, ?_⟩
        · have hstep : selectLoop feePerUtxo (u :: rest) sel tot need =
              selectLoop feePerUtxo rest (sel ++ [u]) (tot + u.amount)
                (need + feePerUtxo) := by
            simp [selectLoop, hbreak]
          rw [hstep, heq, List.take_succ_cons]
          simp only [Prod.mk.injEq]
          refine ⟨by simp, by simp; ring, by push_cast; ring⟩
        · intro j hj hjk
          rcases j with _ | j'
          · omega
          · rcases j' with _ | j''
            · have h1 : sumAmounts (List.take 1 (u :: rest)) = u.amount := by
                simp
              rw [h1]
              push_cast
              omega
            · have hmid' := hmid (j'' + 1) (by omega) (by omega)
              have h2 : sumAmounts (List.take (j'' + 1 + 1) (u :: rest)) =
                  u.amount + sumAmounts (List.take (j'' + 1) rest) := by
                simp
              rw [h2]
              push_cast at hmid' ⊢
              linarith
        · intro hlt
          have hklt : k < rest.length := by simp at hlt; omega
          have hfin := hbrk hklt
          have h3 : sumAmounts (List.take (k + 1) (u :: rest)) =
              u.amount + sumAmounts (List.take k rest) := by
            simp
          rw [h3]
          push_cast at hfin ⊢
          linarith
        · intro _; omega

/-- Length of the sorted copy equals the length of the input. -/
theorem selectSort_length (l : List IUtxoEntry) :
    (selectSort l).length = l.length :=
  (List.perm_insertionSort utxoDescOrder l).length_eq

/-- Amount sums are invariant under the sort. -/
theorem sumAmounts_selectSort (l : List IUtxoEntry) :
    sumAmounts (selectSort l) = sumAmounts l := by
  unfold sumAmounts
  exact ((List.perm_insertionSort utxoDescOrder l).map IUtxoEntry.amount).sum_eq

/-- Claim C1: on success, `selectUTXOs` has consumed a prefix of the
amount-descending stable sort of the input; the returned total is the sum of
the selected amounts and satisfies
`totalAmount = change + targetAmount + selectedCount * feePerUtxo` with
`change ≥ 0`; and no entry was consumed after the running total had met the
running threshold `targetAmount + (entries consumed so far) * feePerUtxo` —
stated for every proper nonempty prefix, and for every proper prefix
including the empty one whenever the target is positive. -/
theorem selectUTXOs_greedy_correct :
    ∀ (availableUtxos : List IUtxoEntry) (targetAmount feePerUtxo : ℤ)
      (r : SelectUTXOsResult),
      selectUTXOs availableUtxos targetAmount feePerUtxo = Except.ok r →
      (∃ rest, selectSort availableUtxos = r.selectedUtxos ++ rest) ∧
      (selectSort availableUtxos).Perm availableUtxos ∧
      List.Pairwise utxoDescOrder r.selectedUtxos ∧
      r.totalAmount = sumAmounts r.selectedUtxos ∧
      r.totalAmount = r.change + targetAmount +
        r.selectedUtxos.length * feePerUtxo ∧
      0 ≤ r.change ∧
      (∀ j, 0 < j → j < r.selectedUtxos.length →
        sumAmounts (r.selectedUtxos.take j) < targetAmount + j * feePerUtxo) ∧
      (0 < targetAmount → ∀ j, j < r.selectedUtxos.length →
        sumAmounts (r.selectedUtxos.take j) < targetAmount + j * feePerUtxo) := by
  intro a t f r hok
  obtain ⟨k, hk, heq, hmid, hbrk, hne⟩ := selectLoop_spec f (selectSort a) [] 0 t
  simp only [selectUTXOs, heq] at hok
  by_cases hfail :
      (0 + sumAmounts ((selectSort a).take k)) < t + (k : ℤ) * f
  · simp only [hfail, if_true] at hok
    exact absurd hok (by simp)
  · simp only [hfail, if_false] at hok
    have hr : r = ⟨[] ++ (selectSort a).take k,
        0 + sumAmounts ((selectSort a).take k),
        (0 + sumAmounts ((selectSort a).take k)) - (t + (k : ℤ) * f)⟩ := by
      cases hok
      rfl
    subst hr
    have hlen : (((selectSort a).take k) : List IUtxoEntry).length = k := by
      simp [List.length_take, Nat.min_eq_left hk]
    have htj : ∀ j, j ≤ k →
        ((selectSort a).take k).take j = (selectSort a).take j := by
      intro j hj
      rw [List.take_take, Nat.min_eq_left hj]
    refine ⟨⟨(selectSort a).drop k, (List.take_append_drop k _).symm⟩,
      List.perm_insertionSort utxoDescOrder a, ?_, by simp, ?_, ?_, ?_, ?_⟩
    · exact (List.sorted_insertionSort utxoDescOrder a).sublist
        (List.take_sublist k _)
    · simp only [List.nil_append, hlen]
      ring
    · simp only [List.nil_append]
      omega
    · intro j hj hjlen
      simp only [List.nil_append] at hjlen ⊢
      rw [hlen] at hjlen
      rw [htj j (le_of_lt hjlen)]
      have := hmid j hj hjlen
      omega
    · intro ht j hjlen
      simp only [List.nil_append] at hjlen ⊢
      rw [hlen] at hjlen
      rw [htj j (le_of_lt hjlen)]
      rcases Nat.eq_zero_or_pos j with hj0 | hjpos
      · subst hj0
        simpa using ht
      · have := hmid j hjpos hjlen
        omega

/-- Concrete input for the witness of `selectUTXOs_greedy_correct`. -/
def witUtxoA : IUtxoEntry := ⟨"kaspatest:qqa", "aa11", 0, 3000⟩

/-- Second concrete input entry (larger amount, listed second, so the
descending sort has to move it first). -/
def witUtxoB : IUtxoEntry := ⟨"kaspatest:qqb", "bb22", 1, 5000⟩

/-- The selection the code computes on the witness input. -/
def witSelectResult : SelectUTXOsResult := ⟨[witUtxoB], 5000, 500⟩

/-- Witness for `selectUTXOs_greedy_correct`: target 3500, per-entry fee
allowance 1000, entries of amounts 3000 and 5000; the sort puts 5000 first
and the greedy loop stops after one entry with change 500. -/
theorem selectUTXOs_greedy_correct_witness :
    (∃ rest, selectSort [witUtxoA, witUtxoB] =
      witSelectResult.selectedUtxos ++ rest) ∧
    (selectSort [witUtxoA, witUtxoB]).Perm [witUtxoA, witUtxoB] ∧
    List.Pairwise utxoDescOrder witSelectResult.selectedUtxos ∧
    witSelectResult.totalAmount = sumAmounts witSelectResult.selectedUtxos ∧
    witSelectResult.totalAmount = witSelectResult.change + 3500 +
      witSelectResult.selectedUtxos.length * 1000 ∧
    0 ≤ witSelectResult.change ∧
    (∀ j, 0 < j → j < witSelectResult.selectedUtxos.length →
      sumAmounts (witSelectResult.selectedUtxos.take j) < 3500 + j * 1000) ∧
    (0 < (3500 : ℤ) → ∀ j, j < witSelectResult.selectedUtxos.length →
      sumAmounts (witSelectResult.selectedUtxos.take j) < 3500 + j * 1000) :=
  selectUTXOs_greedy_correct [witUtxoA, witUtxoB] 3500 1000 witSelectResult rfl

/-- Entry of amount 1100 for the C9 counterexample. -/
def cexEntryBig : IUtxoEntry := ⟨"kaspatest:qqc", "cc33", 0, 1100⟩

/-- Entry of amount 1 for the C9 counterexample. -/
def cexEntrySmall : IUtxoEntry := ⟨"kaspatest:qqd", "dd44", 0, 1⟩

/-- Counterexample to claim C9 as stated: with target 100 and per-entry fee
allowance 1000, consuming **all** entries accumulates 1101, short of
100 + 2·1000 = 2100 — yet selection does not fail: the greedy loop already
met its running threshold after the first entry (1100 ≥ 100 + 1000) and
returned successfully.  So "fails exactly when exhausting all entries is
still short" is false in the only-if direction. -/
theorem selectUTXOs_insufficiency_counterexample :
    sumAmounts [cexEntryBig, cexEntrySmall] <
      100 + ([cexEntryBig, cexEntrySmall] : List IUtxoEntry).length * 1000 ∧
    selectUTXOs [cexEntryBig, cexEntrySmall] 100 1000 =
      Except.ok ⟨[cexEntryBig], 1100, 0⟩ :=
  ⟨by decide, rfl⟩

/-- Claim C9 amended: selection fails — with the error reporting required =
`targetAmount + n·feePerUtxo` versus available = total accumulated amount
(the sum of all entries) — exactly when the greedy accumulation stays
strictly below its running requirement at every nonempty prefix of the
sorted entries, which in particular implies that even consuming all entries
is short. -/
theorem selectUTXOs_insufficientFunds_iff :
    ∀ (availableUtxos : List IUtxoEntry) (targetAmount feePerUtxo : ℤ),
      selectUTXOs availableUtxos targetAmount feePerUtxo =
          Except.error (insufficientFundsMessage
            (targetAmount + availableUtxos.length * feePerUtxo)
            (sumAmounts availableUtxos)) ↔
        ((∀ j, 0 < j → j ≤ availableUtxos.length →
            sumAmounts ((selectSort availableUtxos).take j) <
              targetAmount + j * feePerUtxo) ∧
          sumAmounts availableUtxos <
            targetAmount + availableUtxos.length * feePerUtxo) := by
  intro a t f
  obtain ⟨k, hk, heq, hmid, hbrk, hne⟩ := selectLoop_spec f (selectSort a) [] 0 t
  have hlen : (selectSort a).length = a.length := selectSort_length a
  have hsum : sumAmounts (selectSort a) = sumAmounts a := sumAmounts_selectSort a
  constructor
  · intro herr
    simp only [selectUTXOs, heq] at herr
    by_cases hfail :
        (0 + sumAmounts ((selectSort a).take k)) < t + (k : ℤ) * f
    · have hkn : k = a.length := by
        by_contra hne'
        have hklt : k < (selectSort a).length := by omega
        have := hbrk hklt
        omega
      have htake : (selectSort a).take k = selectSort a := by
        rw [hkn, ← hlen]
        exact List.take_length _
      constructor
      · intro j hj hjle
        rcases Nat.lt_or_ge j k with hjk | hjk
        · exact_mod_cast (by have := hmid j hj hjk; omega :
            sumAmounts ((selectSort a).take j) < t + (j : ℤ) * f)
        · have hjeq : j = k := by omega
          subst hjeq
          rw [htake, hsum]
          rw [htake, hsum] at hfail
          omega
      · rw [htake, hsum] at hfail
        rw [hkn] at hfail
        omega
    · simp only [hfail, if_false] at herr
      exact absurd herr (by simp)
  · rintro ⟨hall, hshort⟩
    have hkn : k = a.length := by
      rcases Nat.lt_or_ge k (selectSort a).length with hklt | hkge
      · exfalso
        have hfin := hbrk hklt
        rcases Nat.eq_zero_or_pos k with hk0 | hkpos
        · have hlpos : selectSort a ≠ [] := by
            intro hnil
            rw [hnil] at hklt
            simp at hklt
          have := hne hlpos
          omega
        · have := hall k hkpos (by omega)
          omega
      · omega
    have htake : (selectSort a).take k = selectSort a := by
      rw [hkn, ← hlen]
      exact List.take_length _
    have hfail : (0 + sumAmounts ((selectSort a).take k)) < t + (k : ℤ) * f := by
      rw [htake, hsum, hkn]
      omega
    simp only [selectUTXOs, heq, hfail, if_true]
    have harg1 : t + (k : ℤ) * f = t + (a.length : ℤ) * f := by
      rw [hkn]
    have harg2 : 0 + sumAmounts ((selectSort a).take k) = sumAmounts a := by
      rw [htake, hsum]
      ring
    rw [harg1, harg2]

/-- Claim C10: the caller's `availableUtxos` array is unchanged by the call —
the selector sorts a spread copy — whether selection succeeds or fails, and
the returned result is exactly the `selectUTXOs` result. -/
theorem selectUTXOs_leaves_input_unchanged :
    ∀ (availableUtxos : List IUtxoEntry) (targetAmount feePerUtxo : ℤ),
      (selectUTXOsCallerView availableUtxos targetAmount feePerUtxo).2 =
        availableUtxos ∧
      (selectUTXOsCallerView availableUtxos targetAmount feePerUtxo).1 =
        selectUTXOs availableUtxos targetAmount feePerUtxo := by
  intro a t f
  exact ⟨rfl, rfl⟩

/-! ## Custom-total-fee back-solving (packages/kaspa-wasm-sdk/src/KaspaSDK.ts) -/

/-- KaspaSDK.ts:745-747, inside `sendTransactionWithCustomFee`: the priority
fee passed to the Engine generator (`buildWithGenerator`, :755-761) is
`customTotalFee > baseFeeEstimate.baseFee ? customTotalFee - baseFeeEstimate.baseFee : BigInt(0)`. -/
def backSolvedPriorityFee (customTotalFee baseFee : ℤ) : ℤ :=
  if baseFee < customTotalFee then customTotalFee - baseFee else 0

/-- Claim C2: the back-solved priority fee is exactly
`customFee - baseFeeEstimate` when `customFee ≥ baseFeeEstimate` and exactly
0 when `customFee < baseFeeEstimate` (that is, `max(0, targetFee - baseFee)`). -/
theorem backSolvedPriorityFee_spec :
    ∀ customTotalFee baseFee : ℤ,
      (baseFee ≤ customTotalFee →
        backSolvedPriorityFee customTotalFee baseFee =
          customTotalFee - baseFee) ∧
      (customTotalFee < baseFee →
        backSolvedPriorityFee customTotalFee baseFee = 0) ∧
      backSolvedPriorityFee customTotalFee baseFee =
        max 0 (customTotalFee - baseFee) := by
  intro c b
  refine ⟨?_, ?_, ?_⟩ <;>
    first
      | (intro h
         unfold backSolvedPriorityFee
         split_ifs with hc <;> omega)
      | (unfold backSolvedPriorityFee
         split_ifs with hc <;> omega)

/-! ## Fee-priority tiers (src/src/index.ts, handleSendTransaction and
handleSendFromWallet) -/

/-- The `switch (feePriority)` at index.ts:799-812 (identical at
:1218-1231): multiplier 0.5 for 'low', 1.0 for 'normal', 2.0 for 'high',
1.0 for anything else. -/
def feeMultiplier (feePriority : String) : ℚ :=
  if feePriority = "low" then 1/2
  else if feePriority = "normal" then 1
  else if feePriority = "high" then 2
  else 1

/-- index.ts:814 (identical at :1233):
`BigInt(Math.ceil(Number(feeEstimate.baseFee) * feeMultiplier))`.  The double
arithmetic is exact for `baseFee < 2^53` because every multiplier is a power
of two, so it is modelled by exact rational arithmetic with an integer
ceiling. -/
def tierPriorityFeeSompi (feePriority : String) (baseFee : ℕ) : ℤ :=
  ⌈(baseFee : ℚ) * feeMultiplier feePriority⌉

/-- The three-way fee resolution of handleSendTransaction
(index.ts:757-816) combined with the argument selection of the
`sdk.sendTransaction` call (index.ts:856-862): a truthy `customFee` is
converted and becomes the `customTotalFee` argument; otherwise a truthy
non-'0' legacy `priorityFee` is converted and passed through; otherwise the
tier fee is computed from the Engine's base-fee estimate and passed as the
generator's `priorityFee` argument.  The KAS→sompi string conversion is
factored out: the `Option ℤ` arguments carry the already-converted sompi
values.  Returns (customTotalFee, priorityFee) as handed to
`sdk.sendTransaction`. -/
def resolvedFeeArgs (customFeeSompi legacyPriorityFeeSompi : Option ℤ)
    (feePriority : String) (baseFee : ℕ) : Option ℤ × Option ℤ :=
  match customFeeSompi with
  | some c => (some c, none)
  | none =>
    match legacyPriorityFeeSompi with
    | some p => (none, some p)
    | none => (none, some (tierPriorityFeeSompi feePriority baseFee))

/-- Claim C3: the tier fee is the base-fee estimate times 0.5 / 1.0 / 2.0
rounded up to an integer — `⌈baseFee/2⌉ = (baseFee+1)/2` for 'low',
`baseFee` for 'normal', `2·baseFee` for 'high' — and a 'high' request with
`baseFee = 1000` puts exactly 2000 into the fee request passed to the
Engine. -/
theorem tierFeeResolution_spec :
    ∀ baseFee : ℕ,
      tierPriorityFeeSompi "low" baseFee = (((baseFee + 1) / 2 : ℕ) : ℤ) ∧
      tierPriorityFeeSompi "normal" baseFee = (baseFee : ℤ) ∧
      tierPriorityFeeSompi "high" baseFee = 2 * (baseFee : ℤ) ∧
      resolvedFeeArgs none none "high" 1000 = (none, some 2000) := by
  have fml : feeMultiplier "low" = 1/2 := rfl
  have fmn : feeMultiplier "normal" = 1 := rfl
  have fmh : feeMultiplier "high" = 2 := rfl
  have hhigh : ∀ n : ℕ, tierPriorityFeeSompi "high" n = 2 * (n : ℤ) := by
    intro n
    unfold tierPriorityFeeSompi
    rw [fmh]
    rw [show ((n : ℚ) * 2) = (((2 * n : ℕ) : ℚ)) by push_cast; ring]
    rw [Int.ceil_natCast]
    push_cast
    ring
  intro n
  refine ⟨?_, ?_, hhigh n, ?_⟩
  · unfold tierPriorityFeeSompi
    rw [fml]
    have hm1 : n ≤ 2 * ((n + 1) / 2) := by omega
    have hm2 : 2 * ((n + 1) / 2) ≤ n + 1 := by omega
    rw [Int.ceil_eq_iff]
    set m := (n + 1) / 2 with hm
    have h1 : ((n : ℕ) : ℚ) ≤ ((2 * m : ℕ) : ℚ) := by exact_mod_cast hm1
    have h2 : ((2 * m : ℕ) : ℚ) ≤ ((n + 1 : ℕ) : ℚ) := by exact_mod_cast hm2
    push_cast at h1 h2
    constructor
    · push_cast
      linarith
    · push_cast
      linarith
  · unfold tierPriorityFeeSompi
    rw [fmn, mul_one, Int.ceil_natCast]
  · show (none, some (tierPriorityFeeSompi "high" 1000)) = (none, some 2000)
    rw [hhigh 1000]
    norm_num

/-! ## Realized fee (packages/kaspa-wasm-sdk/src/KaspaSDK.ts,
sendTransaction and sendTransactionWithCustomFee) -/

/-- A UTXO as returned by `rpcClient.getUTXOs`, restricted to the `amount`
field the fee computation reads. -/
structure RpcUtxo where
  amount : ℤ
deriving DecidableEq, Repr

/-- An output of the signed transaction; the fee computation reads `value`. -/
structure TxOutput where
  value : ℤ
deriving DecidableEq, Repr

/-- The signed transaction produced by the Engine's generator plus signing —
an external collaborator, so it enters the embedding as an oracle value with
its input amounts and output values. -/
structure SignedTransaction where
  inputs : List RpcUtxo
  outputs : List TxOutput
deriving DecidableEq, Repr

/-- KaspaSDK.ts:884: `utxos.reduce((sum, utxo) => sum + utxo.amount, BigInt(0))`
over every UTXO fetched for the sender. -/
def utxoAmountReduce (utxos : List RpcUtxo) : ℤ :=
  utxos.foldl (fun sum utxo => sum + utxo.amount) 0

/-- KaspaSDK.ts:887: `signedTx.outputs.reduce((sum, output) => sum + output.value, BigInt(0))`. -/
def outputValueReduce (outputs : List TxOutput) : ℤ :=
  outputs.foldl (fun sum output => sum + output.value) 0

/-- The fee reported in the `SendTransactionResult` (KaspaSDK.ts:888/:898-902,
and identically :778-780/:787-791 in `sendTransactionWithCustomFee`): the sum
of **all UTXOs fetched for the sender** minus the sum of the signed
transaction's output values.  The requested fee (`customTotalFee` /
`priorityFee`) is in scope at that point but does not enter the
computation; it is kept as an argument here to state that independence. -/
def sendTransactionResultFee (utxos : List RpcUtxo)
    (signedTx : SignedTransaction) (requestedTotalFee : Option ℤ) : ℤ :=
  utxoAmountReduce utxos - outputValueReduce signedTx.outputs

/-- The fee as the specification words it: sum of the **transaction's input
amounts** minus the sum of its actual output amounts, both read off the
signed transaction.  Stated separately so it can be compared with what the
code computes. -/
def specInputOutputFee (signedTx : SignedTransaction) : ℤ :=
  (signedTx.inputs.map RpcUtxo.amount).sum -
    (signedTx.outputs.map TxOutput.value).sum

theorem utxoAmountReduce_eq (utxos : List RpcUtxo) :
    utxoAmountReduce utxos = (utxos.map RpcUtxo.amount).sum := by
  have h : ∀ (l : List RpcUtxo) (s : ℤ),
      l.foldl (fun sum utxo => sum + utxo.amount) s =
        s + (l.map RpcUtxo.amount).sum := by
    intro l
    induction l with
    | nil => intro s; simp
    | cons u rest ih =>
        intro s
        simp [ih, add_assoc]
  simpa using h utxos 0

theorem outputValueReduce_eq (outputs : List TxOutput) :
    outputValueReduce outputs = (outputs.map TxOutput.value).sum := by
  have h : ∀ (l : List TxOutput) (s : ℤ),
      l.foldl (fun sum output => sum + output.value) s =
        s + (l.map TxOutput.value).sum := by
    intro l
    induction l with
    | nil => intro s; simp
    | cons o rest ih =>
        intro s
        simp [ih, add_assoc]
  simpa using h outputs 0

/-- Fetched UTXO of amount 10000 for the C6 counterexample. -/
def cexRpcUtxoA : RpcUtxo := ⟨10000⟩

/-- Second fetched UTXO (amount 5000) the generator leaves unused. -/
def cexRpcUtxoB : RpcUtxo := ⟨5000⟩

/-- A signed transaction whose only input is the first fetched UTXO and whose
only output carries 9000. -/
def cexSignedTx : SignedTransaction := ⟨[cexRpcUtxoA], [⟨9000⟩]⟩

/-- Counterexample to claim C6 as stated: when the Engine's generator signs a
transaction that consumes only some of the fetched UTXOs (here the 10000
entry but not the 5000 one — e.g. after an auto-split, where only the first
pending transaction is submitted), the fee the code reports is
10000 + 5000 − 9000 = 6000, while the sum of the transaction's input amounts
minus its output amounts is 10000 − 9000 = 1000. -/
theorem realizedFee_counterexample :
    sendTransactionResultFee [cexRpcUtxoA, cexRpcUtxoB] cexSignedTx none = 6000 ∧
    specInputOutputFee cexSignedTx = 1000 ∧
    sendTransactionResultFee [cexRpcUtxoA, cexRpcUtxoB] cexSignedTx none ≠
      specInputOutputFee cexSignedTx := by
  refine ⟨rfl, rfl, ?_⟩
  decide

/-- Claim C6 amended: the reported fee equals the sum of all fetched UTXO
amounts minus the sum of the signed transaction's actual output values
(change outputs included); it is computed from the signed transaction's
outputs and is the same whatever total fee was requested; and it coincides
with sum(transaction input amounts) − sum(output amounts) exactly when the
transaction's inputs consume all fetched UTXOs. -/
theorem realizedFee_spec :
    ∀ (utxos : List RpcUtxo) (signedTx : SignedTransaction)
      (requestedFee otherRequestedFee : Option ℤ),
      sendTransactionResultFee utxos signedTx requestedFee =
        (utxos.map RpcUtxo.amount).sum -
          (signedTx.outputs.map TxOutput.value).sum ∧
      sendTransactionResultFee utxos signedTx requestedFee =
        sendTransactionResultFee utxos signedTx otherRequestedFee ∧
      ((signedTx.inputs.map RpcUtxo.amount).sum =
          (utxos.map RpcUtxo.amount).sum →
        sendTransactionResultFee utxos signedTx requestedFee =
          specInputOutputFee signedTx) := by
  intro utxos tx rf orf
  have hbase : sendTransactionResultFee utxos tx rf =
      (utxos.map RpcUtxo.amount).sum -
        (tx.outputs.map TxOutput.value).sum := by
    unfold sendTransactionResultFee
    rw [utxoAmountReduce_eq, outputValueReduce_eq]
  refine ⟨hbase, rfl, ?_⟩
  intro hin
  rw [hbase]
  unfold specInputOutputFee
  rw [hin]

/-! ## Amount validation before network calls (src/src/index.ts,
handleSendTransaction, and packages/kaspa-wasm-sdk/src/utils/index.ts,
kasToSompi) -/

/-- Taxonomy of the amount-validation throws: `invalidAmount` is the
`'Invalid amount: must be greater than 0'` throw at index.ts:733,
`invalidFormat` the `'Invalid amount format: ...'` throw at :740, and
`conversionFailed` the `'Invalid KAS amount'` throw inside `kasToSompi`
(utils/index.ts:30-32), re-raised at index.ts:753. -/
inductive AmountError where
  | invalidAmount
  | invalidFormat
  | conversionFailed
deriving DecidableEq, Repr

/-- The `amount` argument as a JS value.  `num none` is `NaN`; `num (some q)`
a finite number of exact value `q` (all values used here are exactly
representable doubles).  `str raw parsed` is a string, with `parsed` the
oracle value of `parseFloat(raw.trim())` — `none` for `NaN` — since
`parseFloat` itself is a JS builtin outside the repository. -/
inductive JSAmount where
  | undef
  | num (value : Option ℚ)
  | str (raw : String) (parsed : Option ℚ)
deriving DecidableEq, Repr

/-- The amount-validation prefix of handleSendTransaction
(index.ts:732-754, the same checks appear at :1165-1185):
`if (!amount || amount === '0') throw` — JS falsiness rejects `undefined`,
`NaN`, the number 0, and the empty string, and the strict equality rejects
exactly the literal string `'0'`; then
`if (isNaN(parseFloat(String(amount).trim()))) throw`; then
`kasToSompi` re-parses and throws when the parsed value is `NaN` or `< 0`
(utils/index.ts:29-32).  Returns the accepted KAS value (its conversion to
sompi is the Engine's `kaspaToSompi`). -/
def validateSendAmount : JSAmount → Except AmountError ℚ
  | JSAmount.undef => Except.error AmountError.invalidAmount
  | JSAmount.num none => Except.error AmountError.invalidAmount
  | JSAmount.num (some q) =>
      if q = 0 then Except.error AmountError.invalidAmount
      else if q < 0 then Except.error AmountError.conversionFailed
      else Except.ok q
  | JSAmount.str raw parsed =>
      if raw = "" then Except.error AmountError.invalidAmount
      else if raw = "0" then Except.error AmountError.invalidAmount
      else
        match parsed with
        | none => Except.error AmountError.invalidFormat
        | some q =>
            if q < 0 then Except.error AmountError.conversionFailed
            else Except.ok q

/-- One Ledger-Engine interaction, named after the first RPC the branch
reaches. -/
inductive EngineCall where
  | estimateFee
  | getUTXOs
deriving DecidableEq, Repr

/-- Engine interactions of handleSendTransaction up to its first network
round-trip: every throw of the amount validation (index.ts:732-754) happens
before any `await`, so a rejected amount performs zero Engine calls; an
accepted amount proceeds to `sdk.estimateFee` (index.ts:796) on the
fee-tier branch, or into `sdk.sendTransaction`, whose first RPC is
`rpcClient.getUTXOs` (KaspaSDK.ts:716 / :823), on the custom-fee and
legacy-priority-fee branches. -/
def sendFirstEngineCalls (amount : JSAmount)
    (hasCustomFee hasLegacyPriorityFee : Bool) :
    Except AmountError (List EngineCall) :=
  match validateSendAmount amount with
  | Except.error e => Except.error e
  | Except.ok _ =>
      if hasCustomFee then Except.ok [EngineCall.getUTXOs]
      else if hasLegacyPriorityFee then Except.ok [EngineCall.getUTXOs]
      else Except.ok [EngineCall.estimateFee]

/-- Claim C4 exhibits: the falsy inputs (`undefined`, number 0) and the
literal string `'0'` are rejected with zero Engine interactions, as are
non-numeric and negative strings — but the string `"0.0"`, a numeric amount
that is not greater than 0, passes every check (it is truthy, differs from
the literal `'0'`, parses to 0, and 0 is not `< 0`), and the send pipeline
then performs an Engine call (the fee estimate) instead of failing with
InvalidAmount first. -/
theorem sendAmount_zeroString_bug :
    validateSendAmount (JSAmount.str "0.0" (some 0)) = Except.ok 0 ∧
    sendFirstEngineCalls (JSAmount.str "0.0" (some 0)) false false =
      Except.ok [EngineCall.estimateFee] ∧
    sendFirstEngineCalls (JSAmount.str "0.0" (some 0)) true false =
      Except.ok [EngineCall.getUTXOs] ∧
    validateSendAmount (JSAmount.str "0" (some 0)) =
      Except.error AmountError.invalidAmount ∧
    validateSendAmount (JSAmount.num (some 0)) =
      Except.error AmountError.invalidAmount ∧
    validateSendAmount JSAmount.undef =
      Except.error AmountError.invalidAmount ∧
    validateSendAmount (JSAmount.str "abc" none) =
      Except.error AmountError.invalidFormat ∧
    validateSendAmount (JSAmount.str "-1" (some (-1))) =
      Except.error AmountError.conversionFailed :=
  ⟨rfl, rfl, rfl, rfl, rfl, rfl, rfl, rfl⟩

/-! ## Session-identifier normalization (src/src/index.ts) -/

/-- Model of JS `String.prototype.trim`: strip whitespace from both ends
(written over the character list so it evaluates in the kernel). -/
def jsTrim (s : String) : String :=
  ⟨((s.data.dropWhile Char.isWhitespace).reverse.dropWhile
      Char.isWhitespace).reverse⟩

/-- index.ts:31-34, `normalizeSessionId`:
`sessionId && sessionId.trim() ? sessionId.trim() : 'default'` — a missing
id, the empty string, and a whitespace-only string (whose trim is the falsy
empty string) all yield `'default'`; anything else is trimmed. -/
def normalizeSessionId (sessionId : Option String) : String :=
  match sessionId with
  | none => "default"
  | some s => if s ≠ "" ∧ jsTrim s ≠ "" then jsTrim s else "default"

/-- The session key actually used by the handlers that destructure
`const { sessionId = 'default' } = args` instead of calling the helper —
handleConnect (index.ts:496), handleGetBalance (:670), handleEstimateFee
(:897), handleSubscribeBalance (:1283), handleUnsubscribeBalance (:1375),
handleGetSubscriptionStatus (:1458), handleGetTransactionDetails (:1555).
A destructuring default applies only to `undefined`, so every present
string — empty, whitespace-only, or padded — is used verbatim as the
session-map key. -/
def rawSessionKey (sessionId : Option String) : String :=
  match sessionId with
  | none => "default"
  | some s => s

/-- Claim C5 exhibits: the `normalizeSessionId` helper does canonicalize as
the claim says, but the handlers listed at `rawSessionKey` skip it, so for
them the empty string, a whitespace-only string and a padded string address
sessions different from the canonical ones. -/
theorem sessionId_normalization_bug :
    normalizeSessionId none = "default" ∧
    normalizeSessionId (some "") = "default" ∧
    normalizeSessionId (some "   ") = "default" ∧
    normalizeSessionId (some "  abc  ") = normalizeSessionId (some "abc") ∧
    normalizeSessionId (some "abc") = "abc" ∧
    rawSessionKey (some "") ≠ normalizeSessionId (some "") ∧
    rawSessionKey (some "   ") ≠ rawSessionKey none ∧
    rawSessionKey (some "  abc  ") ≠ rawSessionKey (some "abc") := by
  refine ⟨rfl, ?_, ?_, ?_, ?_, ?_, ?_, ?_⟩ <;> decide

/-! ## Balance subscriptions (src/src/index.ts, handleSubscribeBalance /
handleUnsubscribeBalance / handleBalanceChangeEvent) -/

/-- The per-session `SubscriptionInfo` of index.ts:18-23: monitored address
set (a JS `Set<string>`, modelled as its element list), the
include-transactions flag, the last-balance map, and the stored raw event
listener, identified by an opaque tag so that exact removal can be stated
(`eventListener?: Function`). -/
structure SubscriptionInfo where
  addresses : List String
  includeTransactions : Bool
  lastBalances : List (String × ℤ)
  eventListener : Option ℕ
deriving DecidableEq, Repr

/-- A raw balance-change event as the listener receives it
(index.ts:1519-1552 reads `data.address`, `data.type`, `data.transactionId`,
`data.amount`; any field may be absent). -/
structure BalanceEvent where
  address : Option String
  eventType : Option String
  transactionId : Option String
  amount : Option ℤ
deriving DecidableEq, Repr

/-- The user-visible notification the handler prints for a matching event:
session, address, event type (`data.type || 'unknown'`), the transaction id
only when `includeTransactions` is set, and the amount when present. -/
structure BalanceNotification where
  sessionId : String
  address : String
  eventType : String
  transactionId : Option String
  amount : Option ℤ
deriving DecidableEq, Repr

/-- index.ts:1519-1552, `handleBalanceChangeEvent`: return early — no
notification, no state change — when the event carries no address (JS
falsiness also drops the empty string) or the address is not in the
session's monitored set; otherwise emit exactly one notification for that
address.  The handler never writes the subscription (the balance refresh is
explicitly left to the caller, :1546-1547), which the returned state
records. -/
def handleBalanceChangeEvent (sessionId : String) (data : BalanceEvent)
    (subscription : SubscriptionInfo) :
    Option BalanceNotification × SubscriptionInfo :=
  match data.address with
  | none => (none, subscription)
  | some address =>
      if address = "" then (none, subscription)
      else if address ∈ subscription.addresses then
        (some { sessionId := sessionId
                address := address
                eventType := data.eventType.getD "unknown"
                transactionId :=
                  if subscription.includeTransactions then data.transactionId
                  else none
                amount := data.amount },
         subscription)
      else (none, subscription)

/-- The SDK-side listener registry restricted to the three streams the
subscription uses (`sdk.on`/`sdk.off` at index.ts:1343-1345 / :1429-1431,
backed by per-event `Set<Function>`s in KaspaSDK.ts:252-267); listeners are
identified by opaque tags. -/
structure SdkListeners where
  txIncoming : List ℕ
  txSpent : List ℕ
  balanceChanged : List ℕ
deriving DecidableEq, Repr

/-- `sdk.off` (KaspaSDK.ts:262-267): `Set.delete` of the handler — removal
of that identity from the stream's listener collection. -/
def sdkOff (handlers : List ℕ) (handler : ℕ) : List ℕ :=
  handlers.filter (fun h => decide (h ≠ handler))

/-- The three `sdk.off` calls of index.ts:1429-1431. -/
def sdkOffAll (listeners : SdkListeners) (handler : ℕ) : SdkListeners :=
  { txIncoming := sdkOff listeners.txIncoming handler
    txSpent := sdkOff listeners.txSpent handler
    balanceChanged := sdkOff listeners.balanceChanged handler }

/-- One session's subscription-related state: the entry of
`subscriptionInstances` and the SDK listener registry. -/
structure SessionSubState where
  subscription : Option SubscriptionInfo
  listeners : SdkListeners
deriving DecidableEq, Repr

/-- The three textual outcomes of handleUnsubscribeBalance
(index.ts:1385-1393 / :1406-1415 / :1436-1448). -/
inductive UnsubscribeResponse where
  | noActiveSubscription
  | noMatchingAddresses
  | unsubscribed (removedCount remainingCount : ℕ)
deriving DecidableEq, Repr

/-- index.ts:1396-1404: with a nonempty `addresses` argument, intersect it
with the monitored set (`addresses.filter(addr => subscription.addresses.has(addr))`);
with no argument — or an empty array, which fails the
`addresses && addresses.length > 0` test — unsubscribe from all. -/
def addressesToUnsubscribe (subscription : SubscriptionInfo)
    (addresses : Option (List String)) : List String :=
  match addresses with
  | some given =>
      if given ≠ [] then
        given.filter (fun a => decide (a ∈ subscription.addresses))
      else subscription.addresses
  | none => subscription.addresses

/-- index.ts:1374-1455, `handleUnsubscribeBalance`, on one session's state:
no active subscription is a warning, not an error; no matching address is a
warning; otherwise the matched addresses leave both the monitored set and
the last-balance map, and when the monitored set becomes empty the stored
raw event handler is removed from all three streams and the session's
subscription entry is deleted. -/
def handleUnsubscribeBalance (st : SessionSubState)
    (addresses : Option (List String)) :
    SessionSubState × UnsubscribeResponse :=
  match st.subscription with
  | none => (st, UnsubscribeResponse.noActiveSubscription)
  | some subscription =>
      let toUnsub := addressesToUnsubscribe subscription addresses
      if toUnsub = [] then (st, UnsubscribeResponse.noMatchingAddresses)
      else
        let newAddresses := subscription.addresses.filter
          (fun a => decide (a ∉ toUnsub))
        let newBalances := subscription.lastBalances.filter
          (fun p => decide (p.1 ∉ toUnsub))
        if newAddresses = [] then
          ({ subscription := none
             listeners :=
               match subscription.eventListener with
               | some handler => sdkOffAll st.listeners handler
               | none => st.listeners },
           UnsubscribeResponse.unsubscribed toUnsub.length 0)
        else
          ({ subscription := some { subscription with
               addresses := newAddresses
               lastBalances := newBalances }
             listeners := st.listeners },
           UnsubscribeResponse.unsubscribed toUnsub.length newAddresses.length)

theorem not_mem_sdkOff (l : List ℕ) (h : ℕ) : h ∉ sdkOff l h := by
  unfold sdkOff
  intro hmem
  rcases List.mem_filter.mp hmem with ⟨_, hp⟩
  simp at hp

/-- Branch equation: no active subscription (index.ts:1384-1393). -/
theorem handleUnsubscribeBalance_none (st : SessionSubState)
    (req : Option (List String)) (h : st.subscription = none) :
    handleUnsubscribeBalance st req =
      (st, UnsubscribeResponse.noActiveSubscription) := by
  unfold handleUnsubscribeBalance
  rw [h]

/-- Branch equation: no matching address (index.ts:1406-1415). -/
theorem handleUnsubscribeBalance_noMatch (st : SessionSubState)
    (req : Option (List String)) (sub : SubscriptionInfo)
    (h : st.subscription = some sub)
    (h1 : addressesToUnsubscribe sub req = []) :
    handleUnsubscribeBalance st req =
      (st, UnsubscribeResponse.noMatchingAddresses) := by
  unfold handleUnsubscribeBalance
  rw [h]
  dsimp only
  rw [if_pos h1]

/-- Branch equation: the monitored set becomes empty, so the handler comes
off all three streams and the subscription entry is deleted
(index.ts:1426-1434). -/
theorem handleUnsubscribeBalance_toEmpty (st : SessionSubState)
    (req : Option (List String)) (sub : SubscriptionInfo)
    (h : st.subscription = some sub)
    (h1 : addressesToUnsubscribe sub req ≠ [])
    (h2 : sub.addresses.filter
      (fun x => decide (x ∉ addressesToUnsubscribe sub req)) = []) :
    handleUnsubscribeBalance st req =
      ({ subscription := none
         listeners :=
           match sub.eventListener with
           | some handler => sdkOffAll st.listeners handler
           | none => st.listeners },
       UnsubscribeResponse.unsubscribed
         (addressesToUnsubscribe sub req).length 0) := by
  unfold handleUnsubscribeBalance
  rw [h]
  dsimp only
  rw [if_neg h1, if_pos h2]

/-- Branch equation: some addresses remain monitored (index.ts:1417-1448). -/
theorem handleUnsubscribeBalance_someRemain (st : SessionSubState)
    (req : Option (List String)) (sub : SubscriptionInfo)
    (h : st.subscription = some sub)
    (h1 : addressesToUnsubscribe sub req ≠ [])
    (h2 : sub.addresses.filter
      (fun x => decide (x ∉ addressesToUnsubscribe sub req)) ≠ []) :
    handleUnsubscribeBalance st req =
      ({ subscription := some { sub with
           addresses := sub.addresses.filter
             (fun x => decide (x ∉ addressesToUnsubscribe sub req))
           lastBalances := sub.lastBalances.filter
             (fun p => decide (p.1 ∉ addressesToUnsubscribe sub req)) }
         listeners := st.listeners },
       UnsubscribeResponse.unsubscribed
         (addressesToUnsubscribe sub req).length
         (sub.addresses.filter
           (fun x => decide (x ∉ addressesToUnsubscribe sub req))).length) := by
  unfold handleUnsubscribeBalance
  rw [h]
  dsimp only
  rw [if_neg h1, if_neg h2]

/-- With a nonempty explicit address list, the matched addresses are its
intersection with the monitored set (index.ts:1398-1400). -/
theorem addressesToUnsubscribe_some (sub : SubscriptionInfo)
    (req : List String) (hreq : req ≠ []) :
    addressesToUnsubscribe sub (some req) =
      req.filter (fun a => decide (a ∈ sub.addresses)) := by
  unfold addressesToUnsubscribe
  dsimp only
  rw [if_pos hreq]

/-- After an unsubscribe call that listed address `a`, `a` is not in the
surviving subscription's monitored set (whatever else the call did). -/
theorem unsubscribe_removes_requested (st : SessionSubState) (req : List String)
    (a : String) (hareq : a ∈ req) :
    ∀ sub', (handleUnsubscribeBalance st (some req)).1.subscription = some sub' →
      a ∉ sub'.addresses := by
  intro sub' hsub'
  have hreq : req ≠ [] := by
    intro h
    rw [h] at hareq
    exact absurd hareq (List.not_mem_nil a)
  cases hst : st.subscription with
  | none =>
      rw [handleUnsubscribeBalance_none st (some req) hst] at hsub'
      rw [hst] at hsub'
      exact absurd hsub' (by simp)
  | some sub0 =>
      by_cases h1 : addressesToUnsubscribe sub0 (some req) = []
      · rw [handleUnsubscribeBalance_noMatch st (some req) sub0 hst h1] at hsub'
        rw [hst] at hsub'
        have hsub0 : sub0 = sub' := by
          injection hsub'
        subst hsub0
        rw [addressesToUnsubscribe_some sub0 req hreq] at h1
        intro hmem
        have hin : a ∈ req.filter (fun x => decide (x ∈ sub0.addresses)) :=
          List.mem_filter.mpr ⟨hareq, by simpa using hmem⟩
        rw [h1] at hin
        exact absurd hin (List.not_mem_nil a)
      · by_cases h2 : sub0.addresses.filter
            (fun x => decide (x ∉ addressesToUnsubscribe sub0 (some req))) = []
        · rw [handleUnsubscribeBalance_toEmpty st (some req) sub0 hst h1 h2]
            at hsub'
          exact absurd hsub' (by simp)
        · rw [handleUnsubscribeBalance_someRemain st (some req) sub0 hst h1 h2]
            at hsub'
          simp only [Option.some.injEq] at hsub'
          intro hmem
          rw [← hsub'] at hmem
          rcases List.mem_filter.mp hmem with ⟨hmem0, hdec⟩
          apply of_decide_eq_true hdec
          rw [addressesToUnsubscribe_some sub0 req hreq]
          exact List.mem_filter.mpr ⟨hareq, by simpa using hmem0⟩

/-- Claim C7: the raw event handler mutates no state; an event for a
monitored, nonempty address produces exactly one notification, for that
address and that session; an event for an address outside the monitored set
— or with no address at all — produces no notification; and after an
unsubscribe call that listed address `a`, replaying an event for `a`
produces no notification. -/
theorem balanceEvent_filtering :
    ∀ (sessionId : String) (data : BalanceEvent)
      (subscription : SubscriptionInfo),
      (handleBalanceChangeEvent sessionId data subscription).2 =
        subscription ∧
      (∀ a, data.address = some a → a ≠ "" → a ∈ subscription.addresses →
        ∃ n, (handleBalanceChangeEvent sessionId data subscription).1 =
            some n ∧ n.address = a ∧ n.sessionId = sessionId) ∧
      (∀ a, data.address = some a → a ∉ subscription.addresses →
        (handleBalanceChangeEvent sessionId data subscription).1 = none) ∧
      (data.address = none →
        (handleBalanceChangeEvent sessionId data subscription).1 = none) ∧
      (∀ (st : SessionSubState) (req : List String) (a : String),
        a ∈ req → data.address = some a →
        ∀ sub',
          (handleUnsubscribeBalance st (some req)).1.subscription =
            some sub' →
          (handleBalanceChangeEvent sessionId data sub').1 = none) := by
  intro sid data sub
  refine ⟨?_, ?_, ?_, ?_, ?_⟩
  · unfold handleBalanceChangeEvent
    cases data.address with
    | none => rfl
    | some a =>
        by_cases ha0 : a = "" <;>
          by_cases hmem : a ∈ sub.addresses <;>
          simp [ha0, hmem]
  · intro a ha hne hmem
    refine ⟨{ sessionId := sid
              address := a
              eventType := data.eventType.getD "unknown"
              transactionId :=
                if sub.includeTransactions then data.transactionId else none
              amount := data.amount }, ?_, rfl, rfl⟩
    unfold handleBalanceChangeEvent
    rw [ha]
    simp [hne, hmem]
  · intro a ha hnmem
    unfold handleBalanceChangeEvent
    rw [ha]
    by_cases ha0 : a = "" <;> simp [ha0, hnmem]
  · intro ha
    unfold handleBalanceChangeEvent
    rw [ha]
  · intro st req a hareq ha sub' hsub'
    have hnot := unsubscribe_removes_requested st req a hareq sub' hsub'
    unfold handleBalanceChangeEvent
    rw [ha]
    by_cases ha0 : a = "" <;> simp [ha0, hnot]

/-- Claim C8: an unsubscribe with no active subscription is a warning-level
no-op — same state, no error; and whenever an active, nonempty subscription
is processed, the resulting state either still holds a subscription with a
nonempty monitored set, or holds none at all and the stored raw event
handler has been removed from all three event streams — no session is left
with a live handler and zero monitored addresses. -/
theorem unsubscribeBalance_cleanup :
    ∀ (st : SessionSubState) (addresses : Option (List String)),
      (st.subscription = none →
        handleUnsubscribeBalance st addresses =
          (st, UnsubscribeResponse.noActiveSubscription)) ∧
      (∀ sub, st.subscription = some sub → sub.addresses ≠ [] →
        (∃ sub',
            (handleUnsubscribeBalance st addresses).1.subscription =
              some sub' ∧ sub'.addresses ≠ []) ∨
          ((handleUnsubscribeBalance st addresses).1.subscription = none ∧
            ∀ handler, sub.eventListener = some handler →
              handler ∉
                (handleUnsubscribeBalance st addresses).1.listeners.txIncoming ∧
              handler ∉
                (handleUnsubscribeBalance st addresses).1.listeners.txSpent ∧
              handler ∉
                (handleUnsubscribeBalance st addresses).1.listeners.balanceChanged)) := by
  intro st req
  constructor
  · intro h
    exact handleUnsubscribeBalance_none st req h
  · intro sub hst hne
    by_cases h1 : addressesToUnsubscribe sub req = []
    · left
      refine ⟨sub, ?_, hne⟩
      rw [handleUnsubscribeBalance_noMatch st req sub hst h1]
      exact hst
    · by_cases h2 : sub.addresses.filter
          (fun x => decide (x ∉ addressesToUnsubscribe sub req)) = []
      · right
        rw [handleUnsubscribeBalance_toEmpty st req sub hst h1 h2]
        refine ⟨rfl, ?_⟩
        intro handler hh
        rw [hh]
        exact ⟨not_mem_sdkOff _ _, not_mem_sdkOff _ _, not_mem_sdkOff _ _⟩
      · left
        rw [handleUnsubscribeBalance_someRemain st req sub hst h1 h2]
        exact ⟨_, rfl, h2⟩
